import Mathlib

/-!
Shallow embedding of the employee/user CRUD backend
(`src/routes/employeeRoutes.js`, `src/routes/userRoutes.js`).

Request/response bodies and stored documents are modelled as association
lists from field names to JSON-like values.  Each Express route handler
becomes a pure function from the request data and the current store to a
response and the new store.  Machine details that the routes delegate to
external libraries (the `validator.js` string validators, `bcrypt`) are
modelled at the precision the routes rely on; `bcrypt.compare` is passed
in as an abstract boolean-valued function.
-/

/-- A JavaScript date value: either parsed from a string
(`new Date(date_of_joining)` on an ISO-validated string) or taken from
the current clock (`new Date()` at time `t`). -/
inductive JsDate where
  | parsed (s : String)
  | clock (t : Int)
  deriving DecidableEq, Repr

/-- A JSON-ish JavaScript value as it occurs in request bodies, stored
documents and response bodies.  Numbers are integers here: every numeric
value the claims touch is integral, and the routes only move numbers
around unchanged after the one `Number(...)` coercion. -/
inductive Value where
  | vStr (s : String)
  | vNum (n : Int)
  | vNaN
  | vBool (b : Bool)
  | vUndefined
  | vDate (d : JsDate)
  deriving DecidableEq, Repr

/-- A document / JS object: an association list from keys to values.
Objects produced by `JSON.parse` (request bodies) have pairwise distinct
keys; theorems that need this take it as an explicit hypothesis. -/
abbrev Doc := List (String × Value)

/-- First-occurrence field lookup, i.e. `obj[k]` (`none` = the key is
absent, JS `undefined`). -/
def dget : Doc → String → Option Value
  | [], _ => none
  | (k1, v) :: rest, k => if k1 = k then some v else dget rest k

/-- Field access as JS destructuring sees it: an absent key reads as
`undefined`. -/
def dgetD (d : Doc) (k : String) : Value :=
  (dget d k).getD .vUndefined

/-- `obj[k] = v`: replace the first binding of `k` in place, or append
it if absent.  On documents with pairwise distinct keys — the only kind
the handlers build or receive — this is exactly the JS object update /
spread semantics. -/
def dset : Doc → String → Value → Doc
  | [], k, v => [(k, v)]
  | (k1, w) :: rest, k, v =>
      if k1 = k then (k, v) :: rest
      else (k1, w) :: dset rest k v

/-- MongoDB `$set` with update document `u`: every key of `u` is written
into `d`; keys of `d` not mentioned in `u` are left untouched. -/
def setFields (d : Doc) (u : Doc) : Doc :=
  u.foldl (fun acc p => dset acc p.1 p.2) d

/-- The string a validator sees for a field value: `express-validator`
stringifies the raw value and treats a missing field as the empty
string. -/
def fieldStr : Option Value → String
  | none => ""
  | some (.vStr s) => s
  | some (.vNum n) => toString n
  | some .vNaN => "NaN"
  | some (.vBool b) => if b then "true" else "false"
  | some .vUndefined => ""
  | some (.vDate _) => ""

/-- Split a character list at every occurrence of `sep` (the separator
is dropped; empty pieces are kept, like `String.split`). -/
def splitOnChar (sep : Char) : List Char → List (List Char)
  | [] => [[]]
  | c :: rest =>
      match splitOnChar sep rest with
      | [] => if c = sep then [[], []] else [[c]]
      | g :: gs => if c = sep then [] :: g :: gs else (c :: g) :: gs

/-- `validator.js` `notEmpty`. -/
def notEmptyStr (s : String) : Bool :=
  !s.toList.isEmpty

/-- Models `validator.js` `isEmail` at the precision the routes rely on:
one `@` separating a non-empty local part from a domain with at least
two non-empty dot-separated labels. -/
def isEmailStr (s : String) : Bool :=
  match splitOnChar '@' s.toList with
  | [l, dom] =>
      !l.isEmpty &&
      (let labels := splitOnChar '.' dom
       decide (labels.length ≥ 2) && labels.all (fun p => !p.isEmpty))
  | _ => false

/-- Models `validator.js` `isNumeric` (default options): an optional
sign, then digits with at most one decimal point and at least one digit
after the point. -/
def isNumericStr (s : String) : Bool :=
  let cs := s.toList
  let t := match cs with
           | c :: rest => if c = '+' || c = '-' then rest else c :: rest
           | [] => []
  match splitOnChar '.' t with
  | [a] => !a.isEmpty && a.all Char.isDigit
  | [a, b] => a.all Char.isDigit && !b.isEmpty && b.all Char.isDigit
  | _ => false

/-- Models `validator.js` `isISO8601` at the precision the routes rely
on: a `YYYY-MM-DD...` shape with a four-digit year and two-digit month
and day fields. -/
def isISO8601Str (s : String) : Bool :=
  match splitOnChar '-' s.toList with
  | [y, m, d] =>
      y.length = 4 && y.all Char.isDigit &&
      m.length = 2 && m.all Char.isDigit &&
      decide (d.length ≥ 2) && (d.take 2).all Char.isDigit
  | _ => false

/-- `validator.js` `isMongoId`: exactly 24 hexadecimal characters. -/
def isMongoId (s : String) : Bool :=
  s.toList.length = 24 &&
  s.toList.all (fun c => c.isDigit || ('a' ≤ c && c ≤ 'f') || ('A' ≤ c && c ≤ 'F'))

/-- JS truthiness of a value, as used by
`if (updateData.salary)` / `if (updateData.date_of_joining)`. -/
def truthy : Value → Bool
  | .vStr s => !s.isEmpty
  | .vNum n => n != 0
  | .vNaN => false
  | .vBool b => b
  | .vUndefined => false
  | .vDate _ => true

/-- Decimal digits to a natural number. -/
def digitsToNat (cs : List Char) : Nat :=
  cs.foldl (fun acc c => 10 * acc + (c.toNat - 48)) 0

/-- Parse an optionally signed decimal integer. -/
def parseInt (cs : List Char) : Option Int :=
  match cs with
  | '-' :: rest =>
      if !rest.isEmpty && rest.all Char.isDigit then some (-(digitsToNat rest : Int))
      else none
  | '+' :: rest =>
      if !rest.isEmpty && rest.all Char.isDigit then some ((digitsToNat rest : Int))
      else none
  | _ =>
      if !cs.isEmpty && cs.all Char.isDigit then some ((digitsToNat cs : Int))
      else none

/-- `Number(v)`: identity on numbers, decimal parse on strings (NaN when
the parse fails — unreachable after `isNumeric` validation). -/
def jsNumber : Value → Value
  | .vNum n => .vNum n
  | .vStr s =>
      match parseInt s.toList with
      | some n => .vNum n
      | none => .vNaN
  | .vBool b => .vNum (if b then 1 else 0)
  | .vNaN => .vNaN
  | .vUndefined => .vNaN
  | .vDate d => .vDate d

/-- `new Date(v)` on a field value (the routes only apply it after ISO
validation, so the string case is the reachable one). -/
def jsNewDate : Value → Value
  | .vStr s => .vDate (.parsed s)
  | .vNum n => .vDate (.clock n)
  | v => v

/-- `validationResult(req)` followed by `errors.array()[0].msg`: the
message of the first failing check, in declaration order. -/
def firstErr : List (Bool × String) → Option String
  | [] => none
  | (ok, msg) :: rest => if ok then firstErr rest else some msg

/-- An `.optional()` rule: the check is skipped when the field is
absent, and must pass when the field is present. -/
def optCheck (v : Option Value) (check : String → Bool) : Bool :=
  match v with
  | none => true
  | some w => check (fieldStr (some w))

/-- The `validateEmployee` middleware chain from
`employeeRoutes.js`: seven required rules in declaration order, first
failure reported. -/
def validateEmployee (body : Doc) : Option String :=
  firstErr [
    (notEmptyStr (fieldStr (dget body "first_name")), "First name is required"),
    (notEmptyStr (fieldStr (dget body "last_name")), "Last name is required"),
    (isEmailStr (fieldStr (dget body "email")), "Valid email is required"),
    (notEmptyStr (fieldStr (dget body "position")), "Position is required"),
    (isNumericStr (fieldStr (dget body "salary")), "Salary must be a number"),
    (isISO8601Str (fieldStr (dget body "date_of_joining")), "Valid date is required"),
    (notEmptyStr (fieldStr (dget body "department")), "Department is required")]

/-- The `validateEmployeeUpdate` middleware chain: the same seven
fields, each optional but checked when present. -/
def validateEmployeeUpdate (body : Doc) : Option String :=
  firstErr [
    (optCheck (dget body "first_name") notEmptyStr, "First name cannot be empty"),
    (optCheck (dget body "last_name") notEmptyStr, "Last name cannot be empty"),
    (optCheck (dget body "email") isEmailStr, "Valid email is required"),
    (optCheck (dget body "position") notEmptyStr, "Position cannot be empty"),
    (optCheck (dget body "salary") isNumericStr, "Salary must be a number"),
    (optCheck (dget body "date_of_joining") isISO8601Str, "Valid date is required"),
    (optCheck (dget body "department") notEmptyStr, "Department cannot be empty")]

/-- The `validateLogin` middleware chain from `userRoutes.js`. -/
def validateLogin (body : Doc) : Option String :=
  firstErr [
    (isEmailStr (fieldStr (dget body "email")), "Valid email is required"),
    (notEmptyStr (fieldStr (dget body "password")), "Password is required")]

/-- An HTTP response: status code plus JSON body. -/
structure Response where
  status : Nat
  body : Doc
  deriving DecidableEq, Repr

/-- The error body shape used by every failure path:
`status: false` plus a message string. -/
def errBody (msg : String) : Doc :=
  [("status", .vBool false), ("message", .vStr msg)]

/-- The employees collection: `_id` (as its 24-hex string form) paired
with the stored document, in insertion order. -/
abbrev Store := List (String × Doc)

/-- `findOne({ _id: new ObjectId(eid) })`: first document with the given
id. -/
def lookupById : Store → String → Option Doc
  | [], _ => none
  | (i, d) :: rest, k => if i = k then some d else lookupById rest k

/-- `findOne({ email })` viewed as a boolean: some stored document has
this exact value in its `email` field. -/
def existsEmail : Store → Value → Bool
  | [], _ => false
  | (_, d) :: rest, e => if dget d "email" = some e then true else existsEmail rest e

/-- `updateOne({_id}, {$set: u})`: apply `$set` to the first document
with the given id. -/
def updateFirstById : Store → String → Doc → Store
  | [], _, _ => []
  | (i, d) :: rest, k, u =>
      if i = k then (i, setFields d u) :: rest
      else (i, d) :: updateFirstById rest k u

/-- `deleteOne({_id})`: remove the first document with the given id. -/
def removeFirstById : Store → String → Store
  | [], _ => []
  | (i, d) :: rest, k => if i = k then rest else (i, d) :: removeFirstById rest k

/-- The projection applied by the GET handlers: public representation of
a stored employee document. -/
def formatEmployee (id : String) (d : Doc) : Doc :=
  [("employee_id", .vStr id),
   ("first_name", dgetD d "first_name"),
   ("last_name", dgetD d "last_name"),
   ("email", dgetD d "email"),
   ("position", dgetD d "position"),
   ("salary", dgetD d "salary"),
   ("date_of_joining", dgetD d "date_of_joining"),
   ("department", dgetD d "department")]

/-- Handler for `POST /employees`.  `now` is the current clock and
`freshId` the id the database assigns to the inserted document (fresh by
the database id-generation contract). -/
def postEmployees (body : Doc) (store : Store) (now : Int) (freshId : String) :
    Response × Store :=
  match validateEmployee body with
  | some msg => ({ status := 400, body := errBody msg }, store)
  | none =>
    let email := dgetD body "email"
    if existsEmail store email then
      ({ status := 400, body := errBody "Employee already exists with this email" }, store)
    else
      let newEmployee : Doc :=
        [("first_name", dgetD body "first_name"),
         ("last_name", dgetD body "last_name"),
         ("email", email),
         ("position", dgetD body "position"),
         ("salary", jsNumber (dgetD body "salary")),
         ("date_of_joining", jsNewDate (dgetD body "date_of_joining")),
         ("department", dgetD body "department"),
         ("created_at", .vDate (.clock now)),
         ("updated_at", .vDate (.clock now))]
      ({ status := 201,
         body := [("message", .vStr "Employee created successfully."),
                  ("employee_id", .vStr freshId)] },
       store ++ [(freshId, newEmployee)])

/-- Handler for `GET /employees/:eid`. -/
def getEmployeeById (eid : String) (store : Store) : Response :=
  if !isMongoId eid then
    { status := 400, body := errBody "Invalid employee ID" }
  else
    match lookupById store eid with
    | none => { status := 404, body := errBody "Employee not found" }
    | some d => { status := 200, body := formatEmployee eid d }

/-- In-place coercion of one field of the update document, guarded by JS
truthiness: `if (updateData.k) updateData.k = f(updateData.k)`. -/
def coerceField (d : Doc) (k : String) (f : Value → Value) : Doc :=
  match dget d k with
  | some v => if truthy v then dset d k (f v) else d
  | none => d

/-- `const updateData = { ...req.body, updated_at: new Date() }`
followed by the two conditional coercions. -/
def prepareUpdate (body : Doc) (now : Int) : Doc :=
  coerceField
    (coerceField (dset body "updated_at" (.vDate (.clock now))) "salary" jsNumber)
    "date_of_joining" jsNewDate

/-- First validation error of the PUT route: the `validateObjectId`
middleware runs before `validateEmployeeUpdate`, so an invalid id
message comes first in the error array. -/
def putFirstError (eid : String) (body : Doc) : Option String :=
  if !isMongoId eid then some "Invalid employee ID"
  else validateEmployeeUpdate body

/-- Handler for `PUT /employees/:eid`. -/
def putEmployeeById (eid : String) (body : Doc) (store : Store) (now : Int) :
    Response × Store :=
  match putFirstError eid body with
  | some msg => ({ status := 400, body := errBody msg }, store)
  | none =>
    match lookupById store eid with
    | none => ({ status := 404, body := errBody "Employee not found" }, store)
    | some _ =>
      ({ status := 200, body := [("message", .vStr "Employee details updated successfully.")] },
       updateFirstById store eid (prepareUpdate body now))

/-- Handler for `DELETE /employees?eid=...`. -/
def deleteEmployee (eid : String) (store : Store) : Response × Store :=
  if !isMongoId eid then
    ({ status := 400, body := errBody "Invalid employee ID" }, store)
  else
    match lookupById store eid with
    | none => ({ status := 404, body := errBody "Employee not found" }, store)
    | some _ =>
      ({ status := 200, body := [("message", .vStr "Employee deleted successfully.")] },
       removeFirstById store eid)

/-- The users collection: stored user documents in insertion order. -/
abbrev UserStore := List Doc

/-- `findOne({ $or: [{ email }, { username: email }] })`: first user
whose stored email or stored username equals the supplied email
value. -/
def findUser : UserStore → Value → Option Doc
  | [], _ => none
  | u :: rest, e =>
      if dget u "email" = some e ∨ dget u "username" = some e then some u
      else findUser rest e

/-- Handler for `POST /login`.  `verify` models `bcrypt.compare`
(supplied plaintext against stored hash). -/
def postLogin (verify : Value → Value → Bool) (body : Doc) (users : UserStore) :
    Response :=
  match validateLogin body with
  | some msg => { status := 400, body := errBody msg }
  | none =>
    match findUser users (dgetD body "email") with
    | none => { status := 401, body := errBody "Invalid Username and password" }
    | some u =>
      if verify (dgetD body "password") (dgetD u "password") then
        { status := 200,
          body := [("message", .vStr "Login successful."),
                   ("jwt_token", .vStr "Optional implementation")] }
      else
        { status := 401, body := errBody "Invalid Username and password" }

/-- The seven declared employee fields, in validation-declaration
order. -/
def employeeFields : List String :=
  ["first_name", "last_name", "email", "position", "salary", "date_of_joining", "department"]

/-- Modelled from the spec wording of §8: the declared error message of
the first violated rule in declaration order (first_name, last_name,
email, position, salary, date_of_joining, department), written as a
plain decision chain independent of the middleware embedding. -/
def specFirstViolatedMsg (body : Doc) : Option String :=
  if !notEmptyStr (fieldStr (dget body "first_name")) then some "First name is required"
  else if !notEmptyStr (fieldStr (dget body "last_name")) then some "Last name is required"
  else if !isEmailStr (fieldStr (dget body "email")) then some "Valid email is required"
  else if !notEmptyStr (fieldStr (dget body "position")) then some "Position is required"
  else if !isNumericStr (fieldStr (dget body "salary")) then some "Salary must be a number"
  else if !isISO8601Str (fieldStr (dget body "date_of_joining")) then some "Valid date is required"
  else if !notEmptyStr (fieldStr (dget body "department")) then some "Department is required"
  else none


/-! ### Association-list lemmas -/

theorem dget_dset_self (d : Doc) (k : String) (v : Value) :
    dget (dset d k v) k = some v := by
  induction d with
  | nil => simp [dset, dget]
  | cons p rest ih =>
    obtain ⟨k1, w⟩ := p
    by_cases h : k1 = k
    · simp [dset, h, dget]
    · simp [dset, h, dget, ih]

theorem dget_dset_ne (d : Doc) (k k1 : String) (v : Value) (h : k1 ≠ k) :
    dget (dset d k v) k1 = dget d k1 := by
  have hk : k ≠ k1 := Ne.symm h
  induction d with
  | nil => simp [dset, dget, hk]
  | cons p rest ih =>
    obtain ⟨k2, w⟩ := p
    by_cases h2 : k2 = k
    · subst h2
      simp [dset, dget, hk]
    · by_cases h3 : k2 = k1 <;> simp [dset, dget, h2, h3, h, ih]

theorem mem_keys_of_dget_some (d : Doc) (k : String) (v : Value)
    (h : dget d k = some v) : k ∈ d.map Prod.fst := by
  induction d with
  | nil => simp [dget] at h
  | cons p rest ih =>
    obtain ⟨k1, w⟩ := p
    simp only [List.map_cons, List.mem_cons]
    by_cases h1 : k1 = k
    · exact Or.inl h1.symm
    · simp only [dget, if_neg h1] at h
      exact Or.inr (ih h)

theorem dget_eq_none_of_not_mem (d : Doc) (k : String)
    (h : k ∉ d.map Prod.fst) : dget d k = none := by
  induction d with
  | nil => simp [dget]
  | cons p rest ih =>
    obtain ⟨k1, w⟩ := p
    simp only [List.map_cons, List.mem_cons, not_or] at h
    simp only [dget, if_neg (fun hh : k1 = k => h.1 hh.symm)]
    exact ih h.2

theorem keys_dset_of_mem (d : Doc) (k : String) (v : Value)
    (h : k ∈ d.map Prod.fst) :
    (dset d k v).map Prod.fst = d.map Prod.fst := by
  induction d with
  | nil => simp at h
  | cons p rest ih =>
    obtain ⟨k1, w⟩ := p
    by_cases h1 : k1 = k
    · simp [dset, h1]
    · simp only [List.map_cons, List.mem_cons] at h
      rcases h with h | h
    
      · exact absurd h.symm h1
      · simp [dset, h1, ih h]

theorem keys_dset_of_not_mem (d : Doc) (k : String) (v : Value)
    (h : k ∉ d.map Prod.fst) :
    (dset d k v).map Prod.fst = d.map Prod.fst ++ [k] := by
  induction d with
  | nil => simp [dset]
  | cons p rest ih =>
    obtain ⟨k1, w⟩ := p
    simp only [List.map_cons, List.mem_cons, not_or] at h
    have hne : k1 ≠ k := fun hh => h.1 hh.symm
    simp only [dset, if_neg hne, List.map_cons, ih h.2, List.cons_append]

theorem nodup_keys_dset (d : Doc) (k : String) (v : Value)
    (h : (d.map Prod.fst).Nodup) :
    ((dset d k v).map Prod.fst).Nodup := by
  by_cases hm : k ∈ d.map Prod.fst
  · rw [keys_dset_of_mem d k v hm]; exact h
  · rw [keys_dset_of_not_mem d k v hm]
    simp [List.nodup_append, h, hm]

theorem mem_keys_dset (d : Doc) (k k1 : String) (v : Value)
    (h : k1 ∈ (dset d k v).map Prod.fst) :
    k1 ∈ d.map Prod.fst ∨ k1 = k := by
  by_cases hm : k ∈ d.map Prod.fst
  · rw [keys_dset_of_mem d k v hm] at h; exact Or.inl h
  · rw [keys_dset_of_not_mem d k v hm] at h
    simpa using h

theorem setFields_cons (d : Doc) (k : String) (v : Value) (u : Doc) :
    setFields d ((k, v) :: u) = setFields (dset d k v) u := rfl

theorem dget_setFields_not_mem (u : Doc) (d : Doc) (k : String)
    (h : k ∉ u.map Prod.fst) :
    dget (setFields d u) k = dget d k := by
  induction u generalizing d with
  | nil => rfl
  | cons p rest ih =>
    obtain ⟨k1, w⟩ := p
    simp only [List.map_cons, List.mem_cons, not_or] at h
    rw [setFields_cons, ih (dset d k1 w) h.2, dget_dset_ne d k1 k w h.1]

theorem dget_setFields_mem (u : Doc) (d : Doc) (k : String) (v : Value)
    (hnd : (u.map Prod.fst).Nodup) (hget : dget u k = some v) :
    dget (setFields d u) k = some v := by
  induction u generalizing d with
  | nil => simp [dget] at hget
  | cons p rest ih =>
    obtain ⟨k1, w⟩ := p
    simp only [List.map_cons, List.nodup_cons] at hnd
    by_cases h1 : k1 = k
    · subst h1
      have hwv : w = v := by simpa [dget] using hget
      subst hwv
      rw [setFields_cons, dget_setFields_not_mem rest (dset d k1 w) k1 hnd.1]
      exact dget_dset_self d k1 w
    · simp only [dget, if_neg h1] at hget
      rw [setFields_cons]
      exact ih (dset d k1 w) hnd.2 hget

/-! ### Update-document lemmas -/

theorem keys_coerceField (d : Doc) (k : String) (f : Value → Value) :
    (coerceField d k f).map Prod.fst = d.map Prod.fst := by
  unfold coerceField
  cases hg : dget d k with
  | none => rfl
  | some v =>
    by_cases ht : truthy v
    · simp [ht, keys_dset_of_mem d k (f v) (mem_keys_of_dget_some d k v hg)]
    · simp [ht]

theorem dget_coerceField_ne (d : Doc) (k k1 : String) (f : Value → Value)
    (h : k1 ≠ k) :
    dget (coerceField d k f) k1 = dget d k1 := by
  unfold coerceField
  cases hg : dget d k with
  | none => rfl
  | some v =>
    by_cases ht : truthy v
    · simp [ht, dget_dset_ne d k k1 (f v) h]
    · simp [ht]

theorem dget_prepareUpdate_updated_at (body : Doc) (now : Int) :
    dget (prepareUpdate body now) "updated_at" = some (.vDate (.clock now)) := by
  unfold prepareUpdate
  rw [dget_coerceField_ne _ _ _ _ (by decide),
      dget_coerceField_ne _ _ _ _ (by decide)]
  exact dget_dset_self body "updated_at" (.vDate (.clock now))

theorem dget_prepareUpdate_other (body : Doc) (now : Int) (k : String)
    (h1 : k ≠ "salary") (h2 : k ≠ "date_of_joining") (h3 : k ≠ "updated_at") :
    dget (prepareUpdate body now) k = dget body k := by
  unfold prepareUpdate
  rw [dget_coerceField_ne _ _ _ _ h2, dget_coerceField_ne _ _ _ _ h1,
      dget_dset_ne _ _ _ _ h3]

theorem mem_keys_prepareUpdate (body : Doc) (now : Int) (k : String)
    (h : k ∈ (prepareUpdate body now).map Prod.fst) :
    k ∈ body.map Prod.fst ∨ k = "updated_at" := by
  unfold prepareUpdate at h
  rw [keys_coerceField, keys_coerceField] at h
  exact mem_keys_dset body "updated_at" k (.vDate (.clock now)) h

theorem nodup_keys_prepareUpdate (body : Doc) (now : Int)
    (h : (body.map Prod.fst).Nodup) :
    ((prepareUpdate body now).map Prod.fst).Nodup := by
  unfold prepareUpdate
  rw [keys_coerceField, keys_coerceField]
  exact nodup_keys_dset body "updated_at" (.vDate (.clock now)) h

/-! ### Store lemmas -/

theorem lookupById_updateFirst_self (s : Store) (k : String) (d : Doc) (u : Doc)
    (h : lookupById s k = some d) :
    lookupById (updateFirstById s k u) k = some (setFields d u) := by
  induction s with
  | nil => simp [lookupById] at h
  | cons p rest ih =>
    obtain ⟨i, w⟩ := p
    by_cases hi : i = k
    · subst hi
      have hwd : w = d := by simpa [lookupById] using h
      subst hwd
      simp [updateFirstById, lookupById]
    · simp only [lookupById, if_neg hi] at h
      simp [updateFirstById, lookupById, hi, ih h]

theorem lookupById_updateFirst_ne (s : Store) (k i : String) (u : Doc)
    (h : i ≠ k) :
    lookupById (updateFirstById s k u) i = lookupById s i := by
  induction s with
  | nil => rfl
  | cons p rest ih =>
    obtain ⟨j, w⟩ := p
    by_cases hj : j = k
    · subst hj
      have hji : j ≠ i := fun hh => h hh.symm
      simp [updateFirstById, lookupById, hji]
    · by_cases hji : j = i <;> simp [updateFirstById, lookupById, hj, hji, h, ih]

theorem lookupById_append_fresh (s : Store) (i : String) (d : Doc)
    (h : lookupById s i = none) :
    lookupById (s ++ [(i, d)]) i = some d := by
  induction s with
  | nil => simp [lookupById]
  | cons p rest ih =>
    obtain ⟨j, w⟩ := p
    by_cases hj : j = i
    · simp [lookupById, hj] at h
    · simp only [lookupById, if_neg hj] at h
      simp only [List.cons_append, lookupById, if_neg hj]
      exact ih h

theorem lookupById_none_of_not_mem (s : Store) (i : String)
    (h : i ∉ s.map Prod.fst) :
    lookupById s i = none := by
  induction s with
  | nil => rfl
  | cons p rest ih =>
    obtain ⟨j, w⟩ := p
    simp only [List.map_cons, List.mem_cons, not_or] at h
    simp only [lookupById, if_neg (fun hh : j = i => h.1 hh.symm)]
    exact ih h.2

theorem lookupById_removeFirst_self (s : Store) (k : String) (d : Doc)
    (hnd : (s.map Prod.fst).Nodup) (h : lookupById s k = some d) :
    lookupById (removeFirstById s k) k = none := by
  induction s with
  | nil => simp [lookupById] at h
  | cons p rest ih =>
    obtain ⟨i, w⟩ := p
    simp only [List.map_cons, List.nodup_cons] at hnd
    by_cases hi : i = k
    · subst hi
      simp only [removeFirstById, if_pos rfl]
      exact lookupById_none_of_not_mem rest i hnd.1
    · simp only [lookupById, if_neg hi] at h
      simp only [removeFirstById, if_neg hi, lookupById, if_neg hi]
      exact ih hnd.2 h

/-! ### Validator facts used by the claims -/

theorem validateEmployee_eq_spec (body : Doc) :
    validateEmployee body = specFirstViolatedMsg body := by
  unfold validateEmployee specFirstViolatedMsg
  simp only [firstErr]
  cases notEmptyStr (fieldStr (dget body "first_name")) <;>
  cases notEmptyStr (fieldStr (dget body "last_name")) <;>
  cases isEmailStr (fieldStr (dget body "email")) <;>
  cases notEmptyStr (fieldStr (dget body "position")) <;>
  cases isNumericStr (fieldStr (dget body "salary")) <;>
  cases isISO8601Str (fieldStr (dget body "date_of_joining")) <;>
  cases notEmptyStr (fieldStr (dget body "department")) <;>
  rfl

theorem all_present_of_spec_none (body : Doc)
    (h : specFirstViolatedMsg body = none) :
    ∀ f ∈ employeeFields, dget body f ≠ none := by
  unfold specFirstViolatedMsg at h
  split_ifs at h with h1 h2 h3 h4 h5 h6 h7
  all_goals try simp at h
  intro f hf hnone
  simp only [employeeFields, List.mem_cons, List.not_mem_nil, or_false] at hf
  rcases hf with rfl | rfl | rfl | rfl | rfl | rfl | rfl
  · rw [hnone] at h1; exact h1 (by decide)
  · rw [hnone] at h2; exact h2 (by decide)
  · rw [hnone] at h3; exact h3 (by decide)
  · rw [hnone] at h4; exact h4 (by decide)
  · rw [hnone] at h5; exact h5 (by decide)
  · rw [hnone] at h6; exact h6 (by decide)
  · rw [hnone] at h7; exact h7 (by decide)

/-! ### Claims -/

/-- C2: an employee-create request whose email equals the email of a
record already in the store gets a 400 response and the employee
collection is unchanged — no second record is inserted. -/
theorem create_duplicate_email_rejected (body : Doc) (store : Store) (now : Int)
    (freshId : String) (e : Value)
    (hval : validateEmployee body = none)
    (he : dget body "email" = some e)
    (hdup : existsEmail store e = true) :
    postEmployees body store now freshId =
      ({ status := 400, body := errBody "Employee already exists with this email" },
       store) := by
  unfold postEmployees
  rw [hval]
  simp [dgetD, he, hdup]

/-- C4: a login whose email matches no stored user and a login whose
email matches a stored user but whose credential does not verify against
the stored hash both yield a 401 response, with character-for-character
identical bodies (same status flag, same message). -/
theorem login_unauthorized_indistinguishable
    (verify : Value → Value → Bool) (b1 b2 : Doc) (users : UserStore) (u : Doc)
    (h1v : validateLogin b1 = none)
    (h2v : validateLogin b2 = none)
    (h1 : findUser users (dgetD b1 "email") = none)
    (h2 : findUser users (dgetD b2 "email") = some u)
    (h2p : verify (dgetD b2 "password") (dgetD u "password") = false) :
    postLogin verify b1 users =
      { status := 401, body := errBody "Invalid Username and password" } ∧
    postLogin verify b2 users = postLogin verify b1 users := by
  have e1 : postLogin verify b1 users =
      { status := 401, body := errBody "Invalid Username and password" } := by
    unfold postLogin
    rw [h1v, h1]
  have e2 : postLogin verify b2 users =
      { status := 401, body := errBody "Invalid Username and password" } := by
    simp [postLogin, h2v, h2, h2p]
  exact ⟨e1, e2.trans e1.symm⟩

/-- C6: a fetch-by-id, update-by-id or delete-by-id request whose
identifier is not a 24-hex-character object id gets a 400 response with
the validation message and the store is untouched — the handlers bail
out before any database access. -/
theorem malformed_id_rejected (eid : String) (body : Doc) (store : Store) (now : Int)
    (h : isMongoId eid = false) :
    getEmployeeById eid store =
      { status := 400, body := errBody "Invalid employee ID" } ∧
    putEmployeeById eid body store now =
      ({ status := 400, body := errBody "Invalid employee ID" }, store) ∧
    deleteEmployee eid store =
      ({ status := 400, body := errBody "Invalid employee ID" }, store) := by
  refine ⟨?_, ?_, ?_⟩
  · simp [getEmployeeById, h]
  · simp [putEmployeeById, putFirstError, h]
  · simp [deleteEmployee, h]

/-- C7: the login lookup matches the supplied email field against the
stored email OR the stored username: with a verifying credential, login
succeeds under either kind of match, with the same success response. -/
theorem login_matches_email_or_username
    (verify : Value → Value → Bool) (body : Doc) (u : Doc) (others : UserStore)
    (hv : validateLogin body = none)
    (hmatch : dget u "email" = some (dgetD body "email") ∨
              dget u "username" = some (dgetD body "email"))
    (hverify : verify (dgetD body "password") (dgetD u "password") = true) :
    postLogin verify body (u :: others) =
      { status := 200,
        body := [("message", .vStr "Login successful."),
                 ("jwt_token", .vStr "Optional implementation")] } := by
  have hfind : findUser (u :: others) (dgetD body "email") = some u := by
    unfold findUser
    exact if_pos hmatch
  simp [postLogin, hv, hfind, hverify]

/-- C9: deleting an existing employee record twice by its id yields 200
on the first call (the record is removed from the store) and 404 on the
second call, which leaves the store unchanged. -/
theorem delete_twice (eid : String) (store : Store) (d : Doc)
    (hid : isMongoId eid = true)
    (hnd : (store.map Prod.fst).Nodup)
    (hfound : lookupById store eid = some d) :
    (deleteEmployee eid store).1 =
      { status := 200, body := [("message", .vStr "Employee deleted successfully.")] } ∧
    lookupById (deleteEmployee eid store).2 eid = none ∧
    deleteEmployee eid (deleteEmployee eid store).2 =
      ({ status := 404, body := errBody "Employee not found" },
       (deleteEmployee eid store).2) := by
  have h2 : (deleteEmployee eid store).2 = removeFirstById store eid := by
    simp [deleteEmployee, hid, hfound]
  have hnone : lookupById (removeFirstById store eid) eid = none :=
    lookupById_removeFirst_self store eid d hnd hfound
  refine ⟨?_, ?_, ?_⟩
  · simp [deleteEmployee, hid, hfound]
  · rw [h2]; exact hnone
  · rw [h2]; simp [deleteEmployee, hid, hnone]

/-- The round-trip request body of §8: seven fields, salary supplied as
the string "50000" and date_of_joining as "2023-01-01". -/
def c5Body : Doc :=
  [("first_name", .vStr "A"), ("last_name", .vStr "B"), ("email", .vStr "a@b.com"),
   ("position", .vStr "Eng"), ("salary", .vStr "50000"),
   ("date_of_joining", .vStr "2023-01-01"), ("department", .vStr "Tech")]

/-- The document the create handler persists for `c5Body` at clock
`now`: salary coerced to the number 50000, date_of_joining to the parsed
date, plus both timestamps. -/
def c5Stored (now : Int) : Doc :=
  [("first_name", .vStr "A"), ("last_name", .vStr "B"), ("email", .vStr "a@b.com"),
   ("position", .vStr "Eng"), ("salary", .vNum 50000),
   ("date_of_joining", .vDate (.parsed "2023-01-01")), ("department", .vStr "Tech"),
   ("created_at", .vDate (.clock now)), ("updated_at", .vDate (.clock now))]

/-- C5: starting from a store with no employee whose email is
"a@b.com", creating the §8 round-trip employee returns 201 with the
inserted id, and fetching that id returns 200 with the same seven field
values, salary being the number 50000 and date_of_joining the date
parsed from "2023-01-01". -/
theorem create_fetch_roundtrip (store : Store) (now : Int) (freshId : String)
    (hemail : existsEmail store (.vStr "a@b.com") = false)
    (hid : isMongoId freshId = true)
    (hfresh : lookupById store freshId = none) :
    (postEmployees c5Body store now freshId).1.status = 201 ∧
    dget (postEmployees c5Body store now freshId).1.body "employee_id" =
      some (.vStr freshId) ∧
    (getEmployeeById freshId (postEmployees c5Body store now freshId).2).status = 200 ∧
    dget (getEmployeeById freshId (postEmployees c5Body store now freshId).2).body
      "first_name" = some (.vStr "A") ∧
    dget (getEmployeeById freshId (postEmployees c5Body store now freshId).2).body
      "last_name" = some (.vStr "B") ∧
    dget (getEmployeeById freshId (postEmployees c5Body store now freshId).2).body
      "email" = some (.vStr "a@b.com") ∧
    dget (getEmployeeById freshId (postEmployees c5Body store now freshId).2).body
      "position" = some (.vStr "Eng") ∧
    dget (getEmployeeById freshId (postEmployees c5Body store now freshId).2).body
      "salary" = some (.vNum 50000) ∧
    dget (getEmployeeById freshId (postEmployees c5Body store now freshId).2).body
      "date_of_joining" = some (.vDate (.parsed "2023-01-01")) ∧
    dget (getEmployeeById freshId (postEmployees c5Body store now freshId).2).body
      "department" = some (.vStr "Tech") := by
  have h1 : validateEmployee c5Body = none := by decide
  have hpost : postEmployees c5Body store now freshId =
      ({ status := 201,
         body := [("message", .vStr "Employee created successfully."),
                  ("employee_id", .vStr freshId)] },
       store ++ [(freshId, c5Stored now)]) := by
    simp only [postEmployees, h1]
    rw [show dgetD c5Body "email" = Value.vStr "a@b.com" from by decide, hemail]
    rfl
  have hlook : lookupById (store ++ [(freshId, c5Stored now)]) freshId =
      some (c5Stored now) :=
    lookupById_append_fresh store freshId (c5Stored now) hfresh
  rw [hpost]
  have hget : getEmployeeById freshId (store ++ [(freshId, c5Stored now)]) =
      { status := 200, body := formatEmployee freshId (c5Stored now) } := by
    simp [getEmployeeById, hid, hlook]
  rw [hget]
  refine ⟨rfl, by simp [dget], rfl, ?_, ?_, ?_, ?_, ?_, ?_, ?_⟩ <;>
    simp [formatEmployee, dgetD, dget, c5Stored]

/-- C1: an update-by-id that passes validation on an existing record and
supplies only a subset of the seven employee fields returns 200; in the
stored record every unsupplied field other than the update timestamp is
unchanged (so the only fields that can differ are the supplied ones and
`updated_at`), `updated_at` is refreshed to the current clock, and every
other record is untouched.  The key-distinctness hypothesis holds for
every JSON-parsed request body. -/
theorem update_partial_frame (eid : String) (body : Doc) (store : Store) (now : Int)
    (d : Doc)
    (hid : isMongoId eid = true)
    (hval : validateEmployeeUpdate body = none)
    (hnd : (body.map Prod.fst).Nodup)
    (hsub : ∀ k ∈ body.map Prod.fst, k ∈ employeeFields)
    (hfound : lookupById store eid = some d) :
    (putEmployeeById eid body store now).1.status = 200 ∧
    ∃ d2, lookupById (putEmployeeById eid body store now).2 eid = some d2 ∧
      (∀ k, k ∉ body.map Prod.fst → k ≠ "updated_at" → dget d2 k = dget d k) ∧
      dget d2 "updated_at" = some (.vDate (.clock now)) ∧
      ∀ i, i ≠ eid →
        lookupById (putEmployeeById eid body store now).2 i = lookupById store i := by
  have hfe : putFirstError eid body = none := by
    simp [putFirstError, hid, hval]
  have hput : putEmployeeById eid body store now =
      ({ status := 200,
         body := [("message", .vStr "Employee details updated successfully.")] },
       updateFirstById store eid (prepareUpdate body now)) := by
    simp [putEmployeeById, hfe, hfound]
  rw [hput]
  refine ⟨rfl, setFields d (prepareUpdate body now), ?_, ?_, ?_, ?_⟩
  · exact lookupById_updateFirst_self store eid d _ hfound
  · intro k hk hk2
    have hknotin : k ∉ (prepareUpdate body now).map Prod.fst := by
      intro hmem
      rcases mem_keys_prepareUpdate body now k hmem with hcase | hcase
      · exact hk hcase
      · exact hk2 hcase
    exact dget_setFields_not_mem _ d k hknotin
  · exact dget_setFields_mem _ d "updated_at" _
      (nodup_keys_prepareUpdate body now hnd)
      (dget_prepareUpdate_updated_at body now)
  · intro i hi
    exact lookupById_updateFirst_ne store eid i _ hi

/-- C10: the update handler `$set`s the whole request body, so any key
present in a valid update request — also keys outside the seven declared
employee fields, such as `created_at` — is written into the stored
record with its supplied value (only `salary`, `date_of_joining` and
`updated_at` get transformed). -/
theorem update_writes_arbitrary_keys (eid : String) (body : Doc) (store : Store)
    (now : Int) (d : Doc) (k : String) (v : Value)
    (hid : isMongoId eid = true)
    (hval : validateEmployeeUpdate body = none)
    (hnd : (body.map Prod.fst).Nodup)
    (hfound : lookupById store eid = some d)
    (hk : dget body k = some v)
    (hk1 : k ≠ "salary") (hk2 : k ≠ "date_of_joining") (hk3 : k ≠ "updated_at") :
    (putEmployeeById eid body store now).1.status = 200 ∧
    ∃ d2, lookupById (putEmployeeById eid body store now).2 eid = some d2 ∧
      dget d2 k = some v := by
  have hfe : putFirstError eid body = none := by
    simp [putFirstError, hid, hval]
  have hput : putEmployeeById eid body store now =
      ({ status := 200,
         body := [("message", .vStr "Employee details updated successfully.")] },
       updateFirstById store eid (prepareUpdate body now)) := by
    simp [putEmployeeById, hfe, hfound]
  rw [hput]
  refine ⟨rfl, setFields d (prepareUpdate body now), ?_, ?_⟩
  · exact lookupById_updateFirst_self store eid d _ hfound
  · have hupd : dget (prepareUpdate body now) k = some v := by
      rw [dget_prepareUpdate_other body now k hk1 hk2 hk3]
      exact hk
    exact dget_setFields_mem _ d k v (nodup_keys_prepareUpdate body now hnd) hupd

/-- C8: no duplicate-email check is performed on update: updating an
existing record to the email of another existing record succeeds with
200, leaving two distinct records sharing that email — the
creation-time no-duplicate-email invariant is not preserved by
update. -/
theorem update_email_no_conflict_check (id1 id2 : String) (d1 d2 : Doc)
    (store : Store) (e : String) (now : Int)
    (hid1 : isMongoId id1 = true)
    (hne : id2 ≠ id1)
    (hl1 : lookupById store id1 = some d1)
    (hl2 : lookupById store id2 = some d2)
    (he2 : dget d2 "email" = some (.vStr e))
    (hemail : isEmailStr e = true) :
    (putEmployeeById id1 [("email", .vStr e)] store now).1.status = 200 ∧
    (∃ d1a,
      lookupById (putEmployeeById id1 [("email", .vStr e)] store now).2 id1 = some d1a ∧
      dget d1a "email" = some (.vStr e)) ∧
    lookupById (putEmployeeById id1 [("email", .vStr e)] store now).2 id2 = some d2 := by
  have hval : validateEmployeeUpdate [("email", .vStr e)] = none := by
    simp [validateEmployeeUpdate, firstErr, optCheck, dget, fieldStr, hemail]
  have hfe : putFirstError id1 [("email", .vStr e)] = none := by
    simp [putFirstError, hid1, hval]
  have hprep : prepareUpdate [("email", .vStr e)] now =
      [("email", .vStr e), ("updated_at", .vDate (.clock now))] := by
    simp [prepareUpdate, coerceField, dset, dget]
  have hput : putEmployeeById id1 [("email", .vStr e)] store now =
      ({ status := 200,
         body := [("message", .vStr "Employee details updated successfully.")] },
       updateFirstById store id1 (prepareUpdate [("email", .vStr e)] now)) := by
    simp [putEmployeeById, hfe, hl1]
  rw [hput]
  refine ⟨rfl, ⟨setFields d1 (prepareUpdate [("email", .vStr e)] now), ?_, ?_⟩, ?_⟩
  · exact lookupById_updateFirst_self store id1 d1 _ hl1
  · rw [hprep]
    rw [setFields_cons, setFields_cons]
    show dget (dset (dset d1 "email" (.vStr e)) "updated_at" (.vDate (.clock now)))
      "email" = some (.vStr e)
    rw [dget_dset_ne _ _ _ _ (by decide)]
    exact dget_dset_self d1 "email" (.vStr e)
  · rw [lookupById_updateFirst_ne store id1 id2 _ hne]
    exact hl2

/-- C3: an employee-create request missing any of the seven required
fields gets a 400 response whose message is the declared error message
of the first violated rule in declaration order (first_name, last_name,
email, position, salary, date_of_joining, department), and nothing is
inserted. -/
theorem create_missing_field_first_message (body : Doc) (store : Store) (now : Int)
    (freshId : String)
    (hmiss : ∃ f ∈ employeeFields, dget body f = none) :
    ∃ msg, specFirstViolatedMsg body = some msg ∧
      postEmployees body store now freshId =
        ({ status := 400, body := errBody msg }, store) := by
  obtain ⟨msg, hmsg⟩ : ∃ m, specFirstViolatedMsg body = some m := by
    cases hsp : specFirstViolatedMsg body with
    | none =>
        obtain ⟨f, hf, hnone⟩ := hmiss
        exact absurd hnone (all_present_of_spec_none body hsp f hf)
    | some m => exact ⟨m, rfl⟩
  refine ⟨msg, hmsg, ?_⟩
  have hv : validateEmployee body = some msg :=
    (validateEmployee_eq_spec body).trans hmsg
  simp [postEmployees, hv]

/-! ### Concrete data for the witnesses -/

/-- A valid 24-hex object id. -/
def wId : String := "0123456789abcdef01234567"

/-- A second, distinct valid object id. -/
def wId2 : String := "aaaaaaaaaaaaaaaaaaaaaaaa"

/-- A stored employee document. -/
def wDoc : Doc :=
  [("first_name", .vStr "A"), ("last_name", .vStr "B"), ("email", .vStr "a@b.com"),
   ("position", .vStr "Eng"), ("salary", .vNum 50000),
   ("date_of_joining", .vDate (.parsed "2023-01-01")), ("department", .vStr "Tech"),
   ("created_at", .vDate (.clock 1)), ("updated_at", .vDate (.clock 1))]

/-- A second stored employee document with a different email. -/
def wDoc2 : Doc :=
  [("first_name", .vStr "C"), ("email", .vStr "c@d.com")]

/-- A two-employee store. -/
def wStore : Store := [(wId, wDoc), (wId2, wDoc2)]

/-- A stored user whose username happens to be email-shaped. -/
def wUser : Doc :=
  [("username", .vStr "bob@mail.com"), ("email", .vStr "u@x.com"),
   ("password", .vStr "hash1")]

/-- A stand-in for `bcrypt.compare`: the credential verifies exactly when
it equals the stored value. -/
def wVerify : Value → Value → Bool := fun p h => decide (p = h)

/-! ### Witnesses -/

theorem create_duplicate_email_rejected_witness :
    validateEmployee c5Body = none ∧
    postEmployees c5Body wStore 5 "bbbbbbbbbbbbbbbbbbbbbbbb" =
      ({ status := 400, body := errBody "Employee already exists with this email" },
       wStore) :=
  ⟨by decide,
   create_duplicate_email_rejected c5Body wStore 5 "bbbbbbbbbbbbbbbbbbbbbbbb"
     (.vStr "a@b.com") (by decide) (by decide) (by decide)⟩

theorem login_unauthorized_indistinguishable_witness :
    findUser [wUser] (dgetD [("email", Value.vStr "z@x.com"),
      ("password", Value.vStr "a")] "email") = none ∧
    (postLogin wVerify [("email", .vStr "z@x.com"), ("password", .vStr "a")] [wUser] =
      { status := 401, body := errBody "Invalid Username and password" } ∧
     postLogin wVerify [("email", .vStr "u@x.com"), ("password", .vStr "wrong")] [wUser] =
      postLogin wVerify [("email", .vStr "z@x.com"), ("password", .vStr "a")] [wUser]) :=
  ⟨by decide,
   login_unauthorized_indistinguishable wVerify
     [("email", .vStr "z@x.com"), ("password", .vStr "a")]
     [("email", .vStr "u@x.com"), ("password", .vStr "wrong")]
     [wUser] wUser (by decide) (by decide) (by decide) (by decide) (by decide)⟩

theorem malformed_id_rejected_witness :
    isMongoId "nope" = false ∧
    getEmployeeById "nope" wStore =
      { status := 400, body := errBody "Invalid employee ID" } ∧
    putEmployeeById "nope" [] wStore 0 =
      ({ status := 400, body := errBody "Invalid employee ID" }, wStore) ∧
    deleteEmployee "nope" wStore =
      ({ status := 400, body := errBody "Invalid employee ID" }, wStore) :=
  ⟨by decide, malformed_id_rejected "nope" [] wStore 0 (by decide)⟩

theorem login_matches_email_or_username_witness :
    validateLogin [("email", Value.vStr "bob@mail.com"),
      ("password", Value.vStr "hash1")] = none ∧
    postLogin wVerify [("email", .vStr "bob@mail.com"), ("password", .vStr "hash1")]
      [wUser] =
      { status := 200,
        body := [("message", .vStr "Login successful."),
                 ("jwt_token", .vStr "Optional implementation")] } :=
  ⟨by decide,
   login_matches_email_or_username wVerify
     [("email", .vStr "bob@mail.com"), ("password", .vStr "hash1")] wUser []
     (by decide) (by decide) (by decide)⟩

theorem delete_twice_witness :
    lookupById wStore wId = some wDoc ∧
    (deleteEmployee wId wStore).1 =
      { status := 200, body := [("message", .vStr "Employee deleted successfully.")] } ∧
    lookupById (deleteEmployee wId wStore).2 wId = none ∧
    deleteEmployee wId (deleteEmployee wId wStore).2 =
      ({ status := 404, body := errBody "Employee not found" },
       (deleteEmployee wId wStore).2) := by
  have h := delete_twice wId wStore wDoc (by decide) (by decide) (by decide)
  exact ⟨by decide, h.1, h.2.1, h.2.2⟩

theorem create_fetch_roundtrip_witness :
    isMongoId wId = true ∧
    (postEmployees c5Body [] 3 wId).1.status = 201 ∧
    dget (getEmployeeById wId (postEmployees c5Body [] 3 wId).2).body "salary" =
      some (.vNum 50000) ∧
    dget (getEmployeeById wId (postEmployees c5Body [] 3 wId).2).body
      "date_of_joining" = some (.vDate (.parsed "2023-01-01")) := by
  have h := create_fetch_roundtrip [] 3 wId (by decide) (by decide) (by decide)
  exact ⟨by decide, h.1, h.2.2.2.2.2.2.2.1, h.2.2.2.2.2.2.2.2.1⟩

theorem update_partial_frame_witness :
    validateEmployeeUpdate [("position", Value.vStr "Mgr")] = none ∧
    (putEmployeeById wId [("position", .vStr "Mgr")] wStore 5).1.status = 200 := by
  have h := update_partial_frame wId [("position", .vStr "Mgr")] wStore 5 wDoc
    (by decide) (by decide) (by decide) (by decide) (by decide)
  exact ⟨by decide, h.1⟩

theorem update_writes_arbitrary_keys_witness :
    dget [("created_at", Value.vStr "hack")] "created_at" =
      some (Value.vStr "hack") ∧
    ((putEmployeeById wId [("created_at", .vStr "hack")] wStore 5).1.status = 200 ∧
     ∃ d2, lookupById
        (putEmployeeById wId [("created_at", .vStr "hack")] wStore 5).2 wId =
          some d2 ∧
        dget d2 "created_at" = some (.vStr "hack")) :=
  ⟨by decide,
   update_writes_arbitrary_keys wId [("created_at", .vStr "hack")] wStore 5 wDoc
     "created_at" (.vStr "hack") (by decide) (by decide) (by decide) (by decide)
     (by decide) (by decide) (by decide) (by decide)⟩

theorem update_email_no_conflict_check_witness :
    dget wDoc2 "email" = some (Value.vStr "c@d.com") ∧
    ((putEmployeeById wId [("email", .vStr "c@d.com")] wStore 9).1.status = 200 ∧
     (∃ d1a,
       lookupById (putEmployeeById wId [("email", .vStr "c@d.com")] wStore 9).2 wId =
         some d1a ∧
       dget d1a "email" = some (.vStr "c@d.com")) ∧
     lookupById (putEmployeeById wId [("email", .vStr "c@d.com")] wStore 9).2 wId2 =
       some wDoc2) :=
  ⟨by decide,
   update_email_no_conflict_check wId wId2 wDoc wDoc2 wStore "c@d.com" 9
     (by decide) (by decide) (by decide) (by decide) (by decide) (by decide)⟩

theorem create_missing_field_first_message_witness :
    (∃ f ∈ employeeFields, dget [("first_name", Value.vStr "A")] f = none) ∧
    ∃ msg, specFirstViolatedMsg [("first_name", Value.vStr "A")] = some msg ∧
      postEmployees [("first_name", Value.vStr "A")] wStore 2 wId =
        ({ status := 400, body := errBody msg }, wStore) :=
  ⟨by decide,
   create_missing_field_first_message [("first_name", .vStr "A")] wStore 2 wId
     (by decide)⟩
